import Mathlib

/-!
# Risk Validation & Performance Tracking Engine — verification development

Shallow embedding of the risk policy engine (`internal/ai_assistant/risk_management.go`),
the candidate normalizer (`internal/ai_assistant/trading_assistant.go`) and the
performance ledger (`performance_tracker.go`), together with theorems checking the
specification's claims against the embedded code.

Modelling conventions:
* Go `float64` values are embedded as exact rationals (`ℚ`); the Sharpe-ratio
  computation, which takes a real square root, is embedded over `ℝ`.
  Where an IEEE division by zero would produce `±Inf`/`NaN` and the embedded
  arithmetic cannot, the comparison the source performs on that quotient is
  modelled explicitly (see `rrBelowMin`).
* Go `time.Time` instants are embedded as integers, passed explicitly where the
  source calls `time.Now()`.
* `map[string]interface{}` portfolio snapshots are consumed by the source only
  through the `total_value` float field; they are embedded as `Option ℚ`
  (`none` = field absent or not a float).
* Violation messages are built by `fmt.Sprintf`; each message is embedded as a
  constructor carrying the numbers interpolated into it.
-/

namespace ClaudeTrade

/-- Source `TradeRecommendation` (trading_assistant.go): one structured trade candidate. -/
structure TradeRecommendation where
  ticker : String
  strategy : String
  legs : String
  thesis : String
  pop : ℚ
  maxLoss : ℚ
  maxProfit : ℚ
  score : ℚ
deriving DecidableEq

/-- Source `RiskManager` (risk_management.go): the policy engine's configuration. -/
structure RiskManager where
  maxPortfolioRiskPercent : ℚ
  maxPositionSizePercent : ℚ
  maxDailyLossPercent : ℚ
  minProbabilityOfProfit : ℚ
  maxConcentrationPercent : ℚ
  requireManualApproval : Bool
deriving DecidableEq

/-- Source `NewRiskManager` (risk_management.go): the default configuration. -/
def NewRiskManager : RiskManager :=
  { maxPortfolioRiskPercent := 2
    maxPositionSizePercent := 1/2
    maxDailyLossPercent := 1
    minProbabilityOfProfit := 13/20
    maxConcentrationPercent := 10
    requireManualApproval := true }

/-- One violation message, as the numbers interpolated by the source's
`fmt.Sprintf` calls (the source renders POP values multiplied by 100). -/
inductive Violation where
  | positionRisk (positionRiskPercent limit : ℚ)
  | popBelow (popPercent minPopPercent : ℚ)
  | riskReward (ratio : ℚ)
  | portfolioRisk (totalRiskPercent limit : ℚ)
  | concentration (symbol : String) (concentrationPercent limit : ℚ)
deriving DecidableEq

/-- Source `TradeValidation` (risk_management.go). -/
structure TradeValidation where
  isValid : Bool
  violations : List Violation
  riskScore : ℚ
  requiresApproval : Bool
deriving DecidableEq

/-- The portfolio-value resolution both validators perform:
`portfolioValue, ok := portfolio["total_value"].(float64); if !ok || portfolioValue <= 0 { portfolioValue = 100000 }`. -/
def portfolioValueOf (portfolio : Option ℚ) : ℚ :=
  match portfolio with
  | some v => if v ≤ 0 then 100000 else v
  | none => 100000

/-- Source `getStrategyRiskScore` (risk_management.go): lookup table with default 15. -/
def getStrategyRiskScore (strategy : String) : ℚ :=
  if strategy = "covered call" then 5
  else if strategy = "cash secured put" then 7
  else if strategy = "credit spread" then 10
  else if strategy = "iron condor" then 12
  else if strategy = "butterfly" then 15
  else if strategy = "naked option" then 20
  else 15

/-- Source `calculateRiskScore` (risk_management.go, lines 203-224). -/
def calculateRiskScore (rm : RiskManager) (trade : TradeRecommendation)
    (positionRiskPercent : ℚ) : ℚ :=
  let popScore := (1 - trade.pop) * 30
  let sizeScore := positionRiskPercent / rm.maxPositionSizePercent * 30
  let rrRatio := trade.maxProfit / |trade.maxLoss|
  let rrScore := 1 / (rrRatio + 1) * 20
  let strategyScore := getStrategyRiskScore trade.strategy
  min (popScore + min sizeScore 30 + rrScore + strategyScore) 100

/-- The source computes `riskRewardRatio := trade.MaxProfit / math.Abs(trade.MaxLoss)`
in IEEE floats and tests `riskRewardRatio < 0.33`. When the divisor is zero the
float quotient is `+Inf`, `-Inf` or `NaN` and the test holds exactly when
`MaxProfit < 0` (`-Inf`); otherwise it is the exact rational comparison. -/
def rrBelowMin (maxProfit absMaxLoss : ℚ) : Bool :=
  if absMaxLoss = 0 then decide (maxProfit < 0)
  else decide (maxProfit / absMaxLoss < 33/100)

/-- Source `ValidateTrade` (risk_management.go, lines 59-103): per-candidate validation.
The three checks run unconditionally, each appending its violation. -/
def ValidateTrade (rm : RiskManager) (trade : TradeRecommendation)
    (portfolio : Option ℚ) : TradeValidation :=
  let portfolioValue := portfolioValueOf portfolio
  let positionRisk := |trade.maxLoss|
  let positionRiskPercent := positionRisk / portfolioValue * 100
  let v0 : TradeValidation :=
    { isValid := true, violations := [], riskScore := 0,
      requiresApproval := rm.requireManualApproval }
  let v1 :=
    if positionRiskPercent > rm.maxPositionSizePercent then
      { v0 with
        isValid := false
        violations := v0.violations ++
          [Violation.positionRisk positionRiskPercent rm.maxPositionSizePercent] }
    else v0
  let v2 :=
    if trade.pop < rm.minProbabilityOfProfit then
      { v1 with
        isValid := false
        violations := v1.violations ++
          [Violation.popBelow (trade.pop * 100) (rm.minProbabilityOfProfit * 100)] }
    else v1
  let riskRewardRatio := trade.maxProfit / |trade.maxLoss|
  let v3 :=
    if rrBelowMin trade.maxProfit |trade.maxLoss| then
      { v2 with
        isValid := false
        violations := v2.violations ++ [Violation.riskReward riskRewardRatio] }
    else v2
  { v3 with riskScore := calculateRiskScore rm trade positionRiskPercent }

/-- Embeds the `totalRisk` accumulation in `ValidatePortfolio`: sum of `math.Abs(trade.MaxLoss)`. -/
def totalRiskOf (trades : List TradeRecommendation) : ℚ :=
  (trades.map (fun t => |t.maxLoss|)).sum

/-- The per-symbol entry of the `symbolRisk` map built by `ValidatePortfolio`'s
accumulation loop: the `+=` loop over a Go map is equivalent to this per-ticker sum. -/
def symbolRiskOf (trades : List TradeRecommendation) (sym : String) : ℚ :=
  ((trades.filter (fun t => decide (t.ticker = sym))).map (fun t => |t.maxLoss|)).sum

/-- The distinct tickers of the basket. The source iterates the `symbolRisk` Go map,
whose iteration order is unspecified; the embedding fixes a canonical order
(deduplicated ticker list). No claim depends on the order of concentration violations. -/
def tickersOf (trades : List TradeRecommendation) : List String :=
  (trades.map (fun t => t.ticker)).dedup

/-- One iteration of `ValidatePortfolio`'s concentration-check loop. -/
def concStep (rm : RiskManager) (portfolioValue : ℚ) (trades : List TradeRecommendation)
    (v : TradeValidation) (sym : String) : TradeValidation :=
  let concentrationPercent := symbolRiskOf trades sym / portfolioValue * 100
  if concentrationPercent > rm.maxConcentrationPercent then
    { v with
      isValid := false
      violations := v.violations ++
        [Violation.concentration sym concentrationPercent rm.maxConcentrationPercent] }
  else v

/-- Source `ValidatePortfolio` (risk_management.go, lines 106-148): basket validation.
Note the source never sets `RequiresApproval` here, so it keeps its zero value. -/
def ValidatePortfolio (rm : RiskManager) (trades : List TradeRecommendation)
    (portfolio : Option ℚ) : TradeValidation :=
  let portfolioValue := portfolioValueOf portfolio
  let totalRiskPercent := totalRiskOf trades / portfolioValue * 100
  let v0 : TradeValidation :=
    { isValid := true, violations := [], riskScore := 0, requiresApproval := false }
  let v1 :=
    if totalRiskPercent > rm.maxPortfolioRiskPercent then
      { v0 with
        isValid := false
        violations := v0.violations ++
          [Violation.portfolioRisk totalRiskPercent rm.maxPortfolioRiskPercent] }
    else v0
  (tickersOf trades).foldl (concStep rm portfolioValue trades) v1

lemma portfolioValueOf_pos (portfolio : Option ℚ) : 0 < portfolioValueOf portfolio := by
  cases portfolio with
  | none => norm_num [portfolioValueOf]
  | some v =>
    by_cases h : v ≤ 0
    · simp [portfolioValueOf, h]
    · simp only [portfolioValueOf, if_neg h]
      linarith [not_le.mp h]

lemma getStrategyRiskScore_bounds (s : String) :
    5 ≤ getStrategyRiskScore s ∧ getStrategyRiskScore s ≤ 20 := by
  unfold getStrategyRiskScore
  split_ifs <;> norm_num

lemma concFold_requiresApproval (rm : RiskManager) (pv : ℚ)
    (trades : List TradeRecommendation) (L : List String) :
    ∀ v : TradeValidation,
      (L.foldl (concStep rm pv trades) v).requiresApproval = v.requiresApproval := by
  induction L with
  | nil => intro v; rfl
  | cons s L ih =>
    intro v
    rw [List.foldl_cons, ih]
    simp only [concStep]
    split_ifs <;> rfl

lemma concFold_isValid_false (rm : RiskManager) (pv : ℚ)
    (trades : List TradeRecommendation) (L : List String) :
    ∀ v : TradeValidation, v.isValid = false →
      (L.foldl (concStep rm pv trades) v).isValid = false := by
  induction L with
  | nil => intro v hv; exact hv
  | cons s L ih =>
    intro v hv
    rw [List.foldl_cons]
    apply ih
    simp only [concStep]
    split_ifs
    · rfl
    · exact hv

lemma concFold_mem (rm : RiskManager) (pv : ℚ)
    (trades : List TradeRecommendation) (L : List String) (x : Violation) :
    ∀ v : TradeValidation, x ∈ v.violations →
      x ∈ (L.foldl (concStep rm pv trades) v).violations := by
  induction L with
  | nil => intro v hv; exact hv
  | cons s L ih =>
    intro v hv
    rw [List.foldl_cons]
    apply ih
    simp only [concStep]
    split_ifs
    · exact List.mem_append_left _ hv
    · exact hv

lemma concFold_no_violation (rm : RiskManager) (pv : ℚ)
    (trades : List TradeRecommendation) (L : List String)
    (h : ∀ sym ∈ L, ¬ (symbolRiskOf trades sym / pv * 100 > rm.maxConcentrationPercent)) :
    ∀ v : TradeValidation, L.foldl (concStep rm pv trades) v = v := by
  induction L with
  | nil => intro v; rfl
  | cons s L ih =>
    intro v
    rw [List.foldl_cons]
    have hs := h s (List.mem_cons_self s L)
    simp only [concStep]
    rw [if_neg hs]
    exact ih (fun sym hsym => h sym (List.mem_cons_of_mem s hsym)) v

lemma totalRiskOf_const (trades : List TradeRecommendation)
    (h : ∀ t ∈ trades, t.maxLoss = -100) :
    totalRiskOf trades = 100 * trades.length := by
  induction trades with
  | nil => simp [totalRiskOf]
  | cons t ts ih =>
    have ht := h t (List.mem_cons_self t ts)
    have hts := ih (fun q hq => h q (List.mem_cons_of_mem t hq))
    simp only [totalRiskOf] at hts
    simp only [totalRiskOf, List.map_cons, List.sum_cons, List.length_cons]
    rw [ht, hts, abs_of_nonpos (by norm_num)]
    push_cast
    ring

lemma symbolRiskOf_le_totalRiskOf (trades : List TradeRecommendation) (sym : String) :
    symbolRiskOf trades sym ≤ totalRiskOf trades := by
  induction trades with
  | nil => simp [symbolRiskOf, totalRiskOf]
  | cons t ts ih =>
    simp only [symbolRiskOf, totalRiskOf] at ih ⊢
    rw [List.filter_cons]
    split_ifs
    · simp only [List.map_cons, List.sum_cons]
      linarith
    · simp only [List.map_cons, List.sum_cons]
      linarith [abs_nonneg t.maxLoss]

/-- C1: `ValidateTrade` runs all three checks unconditionally; `isValid` holds exactly
when no violation fired, the violations list is the concatenation of the three
(independently triggered) check results in source order, and any candidate whose
probability of profit is below the configured minimum is invalid with a POP reason. -/
theorem C1_validate_candidate_checks (rm : RiskManager) (trade : TradeRecommendation)
    (portfolio : Option ℚ) :
    ((ValidateTrade rm trade portfolio).isValid = true ↔
      (ValidateTrade rm trade portfolio).violations = []) ∧
    (ValidateTrade rm trade portfolio).violations =
      ((if |trade.maxLoss| / portfolioValueOf portfolio * 100 > rm.maxPositionSizePercent
        then [Violation.positionRisk (|trade.maxLoss| / portfolioValueOf portfolio * 100)
                rm.maxPositionSizePercent] else []) ++
       (if trade.pop < rm.minProbabilityOfProfit
        then [Violation.popBelow (trade.pop * 100) (rm.minProbabilityOfProfit * 100)]
        else []) ++
       (if rrBelowMin trade.maxProfit |trade.maxLoss|
        then [Violation.riskReward (trade.maxProfit / |trade.maxLoss|)] else [])) ∧
    (trade.pop < rm.minProbabilityOfProfit →
      (ValidateTrade rm trade portfolio).isValid = false ∧
      Violation.popBelow (trade.pop * 100) (rm.minProbabilityOfProfit * 100) ∈
        (ValidateTrade rm trade portfolio).violations) := by
  by_cases h1 : |trade.maxLoss| / portfolioValueOf portfolio * 100 > rm.maxPositionSizePercent <;>
    by_cases h2 : trade.pop < rm.minProbabilityOfProfit <;>
      by_cases h3 : rrBelowMin trade.maxProfit |trade.maxLoss| = true <;>
        simp [ValidateTrade, h1, h2, h3]

/-- Concrete candidate for the C1 witness: POP 0.50 is below the default 0.65 minimum. -/
def c1Trade : TradeRecommendation :=
  { ticker := "SPY", strategy := "credit spread", legs := "", thesis := "",
    pop := 1/2, maxLoss := -100, maxProfit := 50, score := 0 }

theorem C1_witness :
    c1Trade.pop < NewRiskManager.minProbabilityOfProfit ∧
    ((ValidateTrade NewRiskManager c1Trade none).isValid = false ∧
      Violation.popBelow (c1Trade.pop * 100) (NewRiskManager.minProbabilityOfProfit * 100) ∈
        (ValidateTrade NewRiskManager c1Trade none).violations) :=
  ⟨by norm_num [c1Trade, NewRiskManager],
   (C1_validate_candidate_checks NewRiskManager c1Trade none).2.2
     (by norm_num [c1Trade, NewRiskManager])⟩

/-- Candidate refuting C2: finite fields, POP within `[0,1]`, but a negative
reward-to-risk ratio drives the (uncapped-below) risk score negative. -/
def c2Trade : TradeRecommendation :=
  { ticker := "X", strategy := "covered call", legs := "", thesis := "",
    pop := 9/10, maxLoss := -100, maxProfit := -150, score := 0 }

theorem C2_counterexample :
    ¬ (0 ≤ (ValidateTrade NewRiskManager c2Trade none).riskScore ∧
       (ValidateTrade NewRiskManager c2Trade none).riskScore ≤ 100) := by
  have h : (ValidateTrade NewRiskManager c2Trade none).riskScore = -26 := by
    show calculateRiskScore NewRiskManager c2Trade
        (|c2Trade.maxLoss| / portfolioValueOf none * 100) = -26
    norm_num [calculateRiskScore, getStrategyRiskScore, portfolioValueOf, NewRiskManager,
      c2Trade, abs_of_nonpos]
  intro hc
  rw [h] at hc
  norm_num at hc

/-- C2 amended: the risk score lies in `[0, 100]` once the candidate is
well-formed — POP in `[0,1]`, non-negative max profit, non-zero max loss — and the
configured position-size limit is positive; without these bounds the score has no
lower cap (see `C2_counterexample`). -/
theorem C2_amended_riskScore_bounds (rm : RiskManager) (trade : TradeRecommendation)
    (portfolio : Option ℚ) (hsize : 0 < rm.maxPositionSizePercent)
    (_hpop0 : 0 ≤ trade.pop) (hpop1 : trade.pop ≤ 1)
    (hmp : 0 ≤ trade.maxProfit) (hml : trade.maxLoss ≠ 0) :
    0 ≤ (ValidateTrade rm trade portfolio).riskScore ∧
      (ValidateTrade rm trade portfolio).riskScore ≤ 100 := by
  have hrs : (ValidateTrade rm trade portfolio).riskScore =
      calculateRiskScore rm trade (|trade.maxLoss| / portfolioValueOf portfolio * 100) := rfl
  rw [hrs]
  have hpv := portfolioValueOf_pos portfolio
  have hpct : 0 ≤ |trade.maxLoss| / portfolioValueOf portfolio * 100 :=
    mul_nonneg (div_nonneg (abs_nonneg _) hpv.le) (by norm_num)
  simp only [calculateRiskScore]
  constructor
  · apply le_min _ (by norm_num)
    have hA : 0 ≤ (1 - trade.pop) * 30 := by nlinarith
    have hB : 0 ≤ min (|trade.maxLoss| / portfolioValueOf portfolio * 100 /
        rm.maxPositionSizePercent * 30) 30 := by
      apply le_min _ (by norm_num)
      positivity
    have habs : 0 < |trade.maxLoss| := abs_pos.mpr hml
    have hrr : 0 ≤ trade.maxProfit / |trade.maxLoss| := div_nonneg hmp habs.le
    have hC : 0 ≤ 1 / (trade.maxProfit / |trade.maxLoss| + 1) * 20 := by positivity
    have hD := (getStrategyRiskScore_bounds trade.strategy).1
    linarith
  · exact min_le_right _ _

/-- Candidate for the C2 amended witness: well-formed fields. -/
def c2GoodTrade : TradeRecommendation :=
  { ticker := "SPY", strategy := "credit spread", legs := "", thesis := "",
    pop := 7/10, maxLoss := -100, maxProfit := 50, score := 0 }

theorem C2_amended_witness :
    ((0:ℚ) < NewRiskManager.maxPositionSizePercent ∧ (0:ℚ) ≤ c2GoodTrade.pop ∧
      c2GoodTrade.pop ≤ 1 ∧ (0:ℚ) ≤ c2GoodTrade.maxProfit ∧ c2GoodTrade.maxLoss ≠ 0) ∧
    (0 ≤ (ValidateTrade NewRiskManager c2GoodTrade none).riskScore ∧
      (ValidateTrade NewRiskManager c2GoodTrade none).riskScore ≤ 100) :=
  ⟨by norm_num [NewRiskManager, c2GoodTrade],
   C2_amended_riskScore_bounds NewRiskManager c2GoodTrade none
     (by norm_num [NewRiskManager]) (by norm_num [c2GoodTrade])
     (by norm_num [c2GoodTrade]) (by norm_num [c2GoodTrade])
     (by norm_num [c2GoodTrade])⟩

/-- C9 fails on the code: basket validation never sets `RequiresApproval`, which
therefore keeps its `false` zero value even though the engine requires manual approval. -/
theorem C9_counterexample :
    (ValidatePortfolio NewRiskManager [] none).requiresApproval = false ∧
    NewRiskManager.requireManualApproval = true := by
  refine ⟨?_, rfl⟩
  norm_num [ValidatePortfolio, tickersOf, totalRiskOf, portfolioValueOf, NewRiskManager]

/-- C9 amended: per-candidate validation mirrors the `requireManualApproval` flag in
`requiresApproval`; basket validation always returns `requiresApproval = false`
regardless of the flag. -/
theorem C9_amended_requiresApproval (rm : RiskManager) (trade : TradeRecommendation)
    (pf1 : Option ℚ) (trades : List TradeRecommendation) (pf2 : Option ℚ) :
    (ValidateTrade rm trade pf1).requiresApproval = rm.requireManualApproval ∧
    (ValidatePortfolio rm trades pf2).requiresApproval = false := by
  constructor
  · simp only [ValidateTrade]
    split_ifs <;> rfl
  · simp only [ValidatePortfolio]
    rw [concFold_requiresApproval]
    split_ifs <;> rfl

/-- C8: with every candidate risking 100 against a 10,000 portfolio under the default
limits (2% portfolio risk, strict comparison), baskets of at most 2 candidates pass
and baskets of 3 or more fail with a portfolio-risk violation. -/
theorem C8_basket_threshold (trades : List TradeRecommendation)
    (h : ∀ t ∈ trades, t.maxLoss = -100) :
    (trades.length ≤ 2 →
      (ValidatePortfolio NewRiskManager trades (some 10000)).isValid = true) ∧
    (3 ≤ trades.length →
      (ValidatePortfolio NewRiskManager trades (some 10000)).isValid = false ∧
      ∃ p l, Violation.portfolioRisk p l ∈
        (ValidatePortfolio NewRiskManager trades (some 10000)).violations) := by
  have hpv : portfolioValueOf (some 10000) = 10000 := by norm_num [portfolioValueOf]
  have htot := totalRiskOf_const trades h
  have hpct : totalRiskOf trades / portfolioValueOf (some 10000) * 100 =
      (trades.length : ℚ) := by
    rw [hpv, htot]; ring
  constructor
  · intro hle
    have hcond : ¬ (totalRiskOf trades / portfolioValueOf (some 10000) * 100 >
        NewRiskManager.maxPortfolioRiskPercent) := by
      rw [hpct]
      simp only [NewRiskManager, not_lt]
      exact_mod_cast hle
    have hsym : ∀ sym ∈ tickersOf trades,
        ¬ (symbolRiskOf trades sym / portfolioValueOf (some 10000) * 100 >
          NewRiskManager.maxConcentrationPercent) := by
      intro sym _
      have h1 := symbolRiskOf_le_totalRiskOf trades sym
      have h2 : totalRiskOf trades ≤ 200 := by
        rw [htot]
        have : (trades.length : ℚ) ≤ 2 := by exact_mod_cast hle
        linarith
      rw [hpv]
      simp only [NewRiskManager, not_lt]
      linarith
    simp only [ValidatePortfolio]
    rw [if_neg hcond, concFold_no_violation NewRiskManager _ trades _ hsym]
  · intro h3
    have hcond : totalRiskOf trades / portfolioValueOf (some 10000) * 100 >
        NewRiskManager.maxPortfolioRiskPercent := by
      rw [hpct]
      simp only [NewRiskManager]
      have : (3:ℚ) ≤ trades.length := by exact_mod_cast h3
      linarith
    constructor
    · simp only [ValidatePortfolio]
      rw [if_pos hcond]
      exact concFold_isValid_false _ _ _ _ _ rfl
    · refine ⟨totalRiskOf trades / portfolioValueOf (some 10000) * 100,
        NewRiskManager.maxPortfolioRiskPercent, ?_⟩
      simp only [ValidatePortfolio]
      rw [if_pos hcond]
      exact concFold_mem _ _ _ _ _ _ (by simp)

/-- Two-candidate basket for the C8 witness. -/
def c8two : List TradeRecommendation :=
  [{ ticker := "SPY", strategy := "credit spread", legs := "", thesis := "",
     pop := 7/10, maxLoss := -100, maxProfit := 50, score := 0 },
   { ticker := "QQQ", strategy := "iron condor", legs := "", thesis := "",
     pop := 7/10, maxLoss := -100, maxProfit := 50, score := 0 }]

/-- Three-candidate basket for the C8 witness. -/
def c8three : List TradeRecommendation :=
  { ticker := "IWM", strategy := "butterfly", legs := "", thesis := "",
    pop := 7/10, maxLoss := -100, maxProfit := 50, score := 0 } :: c8two

theorem C8_witness :
    ((∀ t ∈ c8three, t.maxLoss = -100) ∧
      (ValidatePortfolio NewRiskManager c8three (some 10000)).isValid = false) ∧
    ((∀ t ∈ c8two, t.maxLoss = -100) ∧
      (ValidatePortfolio NewRiskManager c8two (some 10000)).isValid = true) :=
  ⟨⟨by simp [c8three, c8two], ((C8_basket_threshold c8three
      (by simp [c8three, c8two])).2 (by simp [c8three, c8two])).1⟩,
   ⟨by simp [c8two], (C8_basket_threshold c8two
      (by simp [c8two])).1 (by simp [c8two])⟩⟩

/-- Source `RecommendationRecord` (performance_tracker.go): the persisted unit of the ledger. -/
structure RecommendationRecord where
  id : String
  timestamp : ℤ
  recommendation : TradeRecommendation
  executed : Bool
  executionTime : Option ℤ
  exitTime : Option ℤ
  actualProfit : Option ℚ
  status : String
deriving DecidableEq

/-- Source `RecordRecommendation` (performance_tracker.go, lines 80-107). The generated id
and `time.Now()` are passed in; the loaded record list stands for the current
partition, and the returned pair is (persisted list, new record). -/
def RecordRecommendation (records : List RecommendationRecord)
    (rec : TradeRecommendation) (id : String) (now : ℤ) :
    List RecommendationRecord × RecommendationRecord :=
  let record : RecommendationRecord :=
    { id := id, timestamp := now, recommendation := rec, executed := false,
      executionTime := none, exitTime := none, actualProfit := none, status := "pending" }
  (records ++ [record], record)

/-- The `for i, rec := range records { if rec.ID == recordID { ...; break } }` pattern
shared by both update operations: mutate the first matching record only. -/
def updateFirst (p : RecommendationRecord → Bool)
    (f : RecommendationRecord → RecommendationRecord) :
    List RecommendationRecord → List RecommendationRecord
  | [] => []
  | x :: xs => if p x then f x :: xs else x :: updateFirst p f xs

/-- Source `UpdateExecution` (performance_tracker.go, lines 110-132): sets `Executed`
unconditionally on the matched record and, when `executed` is true, also stamps
`ExecutionTime` and overwrites `Status` with "executed" — with no guard on the
record's current status. -/
def UpdateExecution (records : List RecommendationRecord) (recordID : String)
    (executed : Bool) (now : ℤ) : List RecommendationRecord :=
  updateFirst (fun rec => decide (rec.id = recordID))
    (fun rec =>
      let rec' := { rec with executed := executed }
      if executed then
        { rec' with executionTime := some now, status := "executed" }
      else rec')
    records

/-- Source `UpdateTradeResult` (performance_tracker.go, lines 135-155): stamps `ExitTime`,
stores the profit and overwrites `Status` with "closed" on the matched record —
again with no guard on the record's current status. -/
def UpdateTradeResult (records : List RecommendationRecord) (recordID : String)
    (profit : ℚ) (now : ℤ) : List RecommendationRecord :=
  updateFirst (fun rec => decide (rec.id = recordID))
    (fun rec =>
      { rec with exitTime := some now, actualProfit := some profit, status := "closed" })
    records

/-- Source `GetRecommendationHistory` (performance_tracker.go, lines 244-260): the last
`limit` records of the current partition, or all of them when `limit ≤ 0` or
`limit ≥ len(records)`. -/
def GetRecommendationHistory (records : List RecommendationRecord) (limit : ℤ) :
    List RecommendationRecord :=
  if 0 < limit ∧ limit < (records.length : ℤ) then
    records.drop ((records.length : ℤ) - limit).toNat
  else records

/-- A record in the terminal "closed" state, used to exhibit the missing lifecycle
guard: the code happily moves it back to "executed". -/
def closedRecord : RecommendationRecord :=
  { id := "rec_1", timestamp := 0,
    recommendation := { ticker := "SPY", strategy := "credit spread", legs := "",
                        thesis := "", pop := 7/10, maxLoss := -100, maxProfit := 50,
                        score := 0 },
    executed := true, executionTime := some 1, exitTime := some 2,
    actualProfit := some 10, status := "closed" }

/-- C3 fails on the code: `UpdateExecution(id, true)` on a record whose status is
already "closed" overwrites the status with "executed" — neither a no-op nor an error. -/
theorem C3_counterexample :
    closedRecord.status = "closed" ∧
    (UpdateExecution [closedRecord] "rec_1" true 5).map (fun r => r.status)
      = ["executed"] := by
  constructor
  · rfl
  · simp [UpdateExecution, updateFirst, closedRecord]

/-- C3 amended: the update operations never consult the current status. On the first
record matching the id — whatever its status, including "closed" and "expired" —
`UpdateExecution(id, true)` overwrites the status with "executed" (stamping the
execution time), `UpdateExecution(id, false)` clears the executed flag and leaves the
status unchanged, and `UpdateTradeResult` overwrites the status with "closed";
records whose id does not match are untouched. -/
theorem C3_amended_no_status_guard (pre post : List RecommendationRecord)
    (r : RecommendationRecord) (hpre : ∀ q ∈ pre, q.id ≠ r.id)
    (b : Bool) (now : ℤ) (profit : ℚ) :
    UpdateExecution (pre ++ r :: post) r.id b now =
      pre ++ (if b then { r with executed := true, executionTime := some now, status := "executed" }
              else { r with executed := b }) :: post ∧
    UpdateTradeResult (pre ++ r :: post) r.id profit now =
      pre ++ { r with exitTime := some now, actualProfit := some profit, status := "closed" } :: post := by
  induction pre with
  | nil =>
    constructor
    · simp only [List.nil_append, UpdateExecution, updateFirst, decide_eq_true_eq,
        if_pos rfl]
      cases b <;> simp
    · simp [UpdateTradeResult, updateFirst]
  | cons q pre ih =>
    have hq : q.id ≠ r.id := hpre q (List.mem_cons_self q pre)
    have ih' := ih (fun p hp => hpre p (List.mem_cons_of_mem q hp))
    constructor
    · simp only [List.cons_append, UpdateExecution, updateFirst, decide_eq_true_eq,
        if_neg hq]
      exact congrArg (List.cons q) ih'.1
    · simp only [List.cons_append, UpdateTradeResult, updateFirst, decide_eq_true_eq,
        if_neg hq]
      exact congrArg (List.cons q) ih'.2

theorem C3_amended_witness :
    ((∀ q ∈ ([] : List RecommendationRecord), q.id ≠ closedRecord.id) ∧
      UpdateExecution [closedRecord] closedRecord.id true 5 =
        [{ closedRecord with executed := true, executionTime := some 5, status := "executed" }]) ∧
    closedRecord.status = "closed" :=
  ⟨⟨List.forall_mem_nil _, by
      have h := (C3_amended_no_status_guard [] [] closedRecord
        (List.forall_mem_nil _) true 5 10).1
      simpa using h⟩,
   rfl⟩

lemma history_one_append (records : List RecommendationRecord)
    (R : RecommendationRecord) :
    GetRecommendationHistory (records ++ [R]) 1 = [R] := by
  cases records with
  | nil => simp [GetRecommendationHistory]
  | cons a as =>
    simp only [GetRecommendationHistory]
    rw [if_pos]
    · have hd : ((((a :: as) ++ [R]).length : ℤ) - 1).toNat = (a :: as).length := by
        simp only [List.length_append, List.length_cons, List.length_nil]
        omega
      rw [hd]
      exact List.drop_left _ _
    · constructor
      · norm_num
      · simp only [List.length_append, List.length_cons, List.length_nil]
        push_cast
        omega

/-- C7: recording a recommendation and immediately asking for the most recent
record returns exactly the new record, in the "pending", unexecuted state. -/
theorem C7_record_history_roundtrip (records : List RecommendationRecord)
    (rec : TradeRecommendation) (id : String) (now : ℤ) :
    GetRecommendationHistory (RecordRecommendation records rec id now).1 1
      = [(RecordRecommendation records rec id now).2] ∧
    (RecordRecommendation records rec id now).2.status = "pending" ∧
    (RecordRecommendation records rec id now).2.executed = false :=
  ⟨history_one_append records _, rfl, rfl⟩

/-- The loop of `calculateMaxDrawdown` (performance_tracker.go, lines 390-411), with
the running state passed explicitly. The division `(peak - cumulative) / peak` is
embedded with the rational convention `x / 0 = 0`; in the source the quotient is an
IEEE float, so the two differ only while `peak = 0` (i.e. before the cumulative sum
has ever been positive), a region the spec itself marks as not meaningfully defined. -/
def mddLoop : List ℚ → ℚ → ℚ → ℚ → ℚ
  | [], _, _, maxDrawdown => maxDrawdown
  | r :: rest, cumulative, peak, maxDrawdown =>
    let cumulative' := cumulative + r
    let peak' := if cumulative' > peak then cumulative' else peak
    let drawdown := (peak' - cumulative') / peak'
    let maxDrawdown' := if drawdown > maxDrawdown then drawdown else maxDrawdown
    mddLoop rest cumulative' peak' maxDrawdown'

/-- Source `calculateMaxDrawdown` (performance_tracker.go, lines 390-411). -/
def calculateMaxDrawdown (returns : List ℚ) : ℚ :=
  if returns.isEmpty then 0
  else mddLoop returns 0 0 0 * 100

/-- The walk as the spec words it: the list of per-step drawdowns
`(peak - cumulative) / peak`, maintaining the running cumulative sum and its
running peak. -/
def runningDrawdowns : List ℚ → ℚ → ℚ → List ℚ
  | [], _, _ => []
  | r :: rest, cumulative, peak =>
    let cumulative' := cumulative + r
    let peak' := max peak cumulative'
    ((peak' - cumulative') / peak') :: runningDrawdowns rest cumulative' peak'

/-- Spec formulation of the max drawdown: the maximum drawdown encountered over all
steps of the walk, as a percentage. -/
def specMaxDrawdown (returns : List ℚ) : ℚ :=
  ((runningDrawdowns returns 0 0).foldl max 0) * 100

lemma if_lt_eq_max (a b : ℚ) : (if a < b then b else a) = max a b := by
  rcases le_or_lt b a with h | h
  · rw [if_neg (not_lt.mpr h), max_eq_left h]
  · rw [if_pos h, max_eq_right h.le]

lemma mddLoop_eq_foldl (l : List ℚ) :
    ∀ cumulative peak maxDrawdown : ℚ,
      mddLoop l cumulative peak maxDrawdown =
        (runningDrawdowns l cumulative peak).foldl max maxDrawdown := by
  induction l with
  | nil => intro c p m; rfl
  | cons r rest ih =>
    intro c p m
    simp only [mddLoop, runningDrawdowns, List.foldl_cons]
    rw [if_lt_eq_max p (c + r), if_lt_eq_max m ((max p (c + r) - (c + r)) / max p (c + r))]
    exact ih (c + r) (max p (c + r)) _

/-- C6: the code's max drawdown is exactly the spec's walk — the maximum over all
steps of `(peak − cumulative)/peak` — expressed as a percentage, and the sequence
`[100, -50, 30]` yields 50. -/
theorem C6_max_drawdown :
    (∀ returns : List ℚ, calculateMaxDrawdown returns = specMaxDrawdown returns) ∧
    calculateMaxDrawdown [100, -50, 30] = 50 := by
  constructor
  · intro returns
    cases returns with
    | nil => simp [calculateMaxDrawdown, specMaxDrawdown, runningDrawdowns]
    | cons r rest =>
      simp only [calculateMaxDrawdown, specMaxDrawdown, List.isEmpty_cons,
        Bool.false_eq_true, if_false]
      rw [mddLoop_eq_foldl]
  · norm_num [calculateMaxDrawdown, mddLoop]

/-- The `returns` sequence `GetMetrics` accumulates: the `ActualProfit` values of
executed records that have one, in record order. -/
def returnsOf (records : List RecommendationRecord) : List ℚ :=
  records.filterMap (fun rec => if rec.executed then rec.actualProfit else none)

/-- The aggregate fields of `PerformanceMetrics` (performance_tracker.go) that the
claims are about. The per-strategy and per-timeframe breakdown maps and the Sharpe
field (treated separately over `ℝ`, see `calculateSharpeRatio`) are omitted. -/
structure PerformanceMetrics where
  totalRecommendations : ℕ
  executedTrades : ℕ
  winningTrades : ℕ
  losingTrades : ℕ
  winRate : ℚ
  averageReturn : ℚ
  totalReturn : ℚ
  maxDrawdown : ℚ
deriving DecidableEq

/-- The aggregate computation of `GetMetrics` (performance_tracker.go, lines
158-241) over the records loaded for the period: wins and losses are counted
inside the `rec.Executed` branch and only when `ActualProfit` is set. Partition
file loading and date filtering are I/O plumbing outside the embedding. -/
def GetMetrics (records : List RecommendationRecord) : PerformanceMetrics :=
  let returns := returnsOf records
  let executedTrades := records.countP (fun rec => rec.executed)
  let winningTrades := returns.countP (fun p => decide (0 < p))
  let losingTrades := returns.countP (fun p => decide (p < 0))
  let totalReturn := returns.sum
  { totalRecommendations := records.length
    executedTrades := executedTrades
    winningTrades := winningTrades
    losingTrades := losingTrades
    winRate := if 0 < executedTrades then (winningTrades : ℚ) / (executedTrades : ℚ) * 100
               else 0
    averageReturn := if 0 < executedTrades then totalReturn / (executedTrades : ℚ) else 0
    totalReturn := totalReturn
    maxDrawdown := calculateMaxDrawdown returns }

/-- A record that is closed (exit recorded, profit 10) but never marked executed —
reachable by calling `UpdateTradeResult` without `UpdateExecution`. -/
def closedUnexecutedRecord : RecommendationRecord :=
  { id := "rec_2", timestamp := 0,
    recommendation := { ticker := "SPY", strategy := "credit spread", legs := "",
                        thesis := "", pop := 7/10, maxLoss := -100, maxProfit := 50,
                        score := 0 },
    executed := false, executionTime := none, exitTime := some 3,
    actualProfit := some 10, status := "closed" }

/-- C4 fails on the code: a closed record with positive actual profit that is not
marked executed is counted neither as a winning trade nor in the total return,
whereas the claim says closed records count irrespective of the executed flag. -/
theorem C4_counterexample :
    closedUnexecutedRecord.status = "closed" ∧
    closedUnexecutedRecord.actualProfit = some 10 ∧
    (GetMetrics [closedUnexecutedRecord]).winningTrades = 0 ∧
    (GetMetrics [closedUnexecutedRecord]).totalReturn = 0 ∧
    [closedUnexecutedRecord].countP (fun r => r.status == "closed" &&
      (match r.actualProfit with | some p => decide (0 < p) | none => false)) = 1 := by
  refine ⟨rfl, rfl, rfl, ?_, ?_⟩
  · show (returnsOf [closedUnexecutedRecord]).sum = 0
    norm_num [returnsOf, closedUnexecutedRecord]
  · norm_num [List.countP_cons, closedUnexecutedRecord]

lemma returnsOf_countP (records : List RecommendationRecord) (q : ℚ → Bool) :
    (returnsOf records).countP q =
      records.countP (fun r => r.executed &&
        (match r.actualProfit with | some p => q p | none => false)) := by
  induction records with
  | nil => rfl
  | cons r rs ih =>
    cases hex : r.executed <;> cases hap : r.actualProfit <;>
      simp [returnsOf, List.filterMap_cons, List.countP_cons, hex, hap] <;>
        simpa [returnsOf] using ih

lemma returnsOf_sum (records : List RecommendationRecord) :
    (returnsOf records).sum =
      ((records.filter (fun r => r.executed)).filterMap (fun r => r.actualProfit)).sum := by
  induction records with
  | nil => rfl
  | cons r rs ih =>
    cases hex : r.executed <;> cases hap : r.actualProfit <;>
      simp [returnsOf, List.filterMap_cons, List.filter_cons, hex, hap] <;>
        simpa [returnsOf] using ih

/-- C4 amended: `winningTrades` counts records that are marked executed AND have a
positive recorded profit (the closed status itself is never consulted, so a closed
but unexecuted record is skipped — see `C4_counterexample`); `losingTrades` and
`totalReturn` likewise range over executed records with a recorded profit; and when
`executedTrades > 0`, `winRate = winningTrades/executedTrades × 100` and
`averageReturn = totalReturn/executedTrades`. -/
theorem C4_amended_metrics (records : List RecommendationRecord) :
    (GetMetrics records).winningTrades =
      records.countP (fun r => r.executed &&
        (match r.actualProfit with | some p => decide (0 < p) | none => false)) ∧
    (GetMetrics records).losingTrades =
      records.countP (fun r => r.executed &&
        (match r.actualProfit with | some p => decide (p < 0) | none => false)) ∧
    (GetMetrics records).totalReturn =
      ((records.filter (fun r => r.executed)).filterMap (fun r => r.actualProfit)).sum ∧
    (0 < (GetMetrics records).executedTrades →
      (GetMetrics records).winRate =
        ((GetMetrics records).winningTrades : ℚ) / ((GetMetrics records).executedTrades : ℚ)
          * 100 ∧
      (GetMetrics records).averageReturn =
        (GetMetrics records).totalReturn / ((GetMetrics records).executedTrades : ℚ)) := by
  refine ⟨returnsOf_countP records _, returnsOf_countP records _, returnsOf_sum records, ?_⟩
  intro h
  have h' : 0 < records.countP (fun rec => rec.executed) := h
  constructor
  · show (if 0 < records.countP (fun rec => rec.executed) then _ else 0) = _
    rw [if_pos h']
    rfl
  · show (if 0 < records.countP (fun rec => rec.executed) then _ else 0) = _
    rw [if_pos h']
    rfl

/-- A normally executed-and-closed record, for the C4 amended witness. -/
def executedClosedRecord : RecommendationRecord :=
  { id := "rec_3", timestamp := 0,
    recommendation := { ticker := "QQQ", strategy := "iron condor", legs := "",
                        thesis := "", pop := 7/10, maxLoss := -100, maxProfit := 50,
                        score := 0 },
    executed := true, executionTime := some 1, exitTime := some 2,
    actualProfit := some 10, status := "closed" }

theorem C4_amended_witness :
    0 < (GetMetrics [executedClosedRecord]).executedTrades ∧
    (GetMetrics [executedClosedRecord]).winRate =
      ((GetMetrics [executedClosedRecord]).winningTrades : ℚ) /
        ((GetMetrics [executedClosedRecord]).executedTrades : ℚ) * 100 :=
  ⟨by norm_num [GetMetrics, executedClosedRecord],
   ((C4_amended_metrics [executedClosedRecord]).2.2.2
     (by norm_num [GetMetrics, executedClosedRecord])).1⟩

section
open Classical

/-- Source `calculateSharpeRatio` (performance_tracker.go, lines 361-388). The profit
inputs are exact rationals; the output is real because the source takes square
roots. `variance` accumulates the squared deviations exactly as the loop does; the
source then divides by `n−1` inside the square root. -/
noncomputable def calculateSharpeRatio (returns : List ℚ) : ℝ :=
  if returns.length < 2 then 0
  else
    let avgReturn : ℚ := returns.sum / (returns.length : ℚ)
    let variance : ℚ := (returns.map (fun r => (r - avgReturn) * (r - avgReturn))).sum
    let stdDev : ℝ := Real.sqrt ((variance : ℝ) / ((returns.length : ℝ) - 1))
    if stdDev = 0 then 0
    else ((avgReturn : ℝ) - 0.05 / 252) / stdDev * Real.sqrt 252

/-- Sample mean, as the spec words it. -/
def sampleMean (l : List ℚ) : ℚ := l.sum / (l.length : ℚ)

/-- Sample standard deviation with denominator `n − 1`, as the spec words it. -/
noncomputable def sampleStdDev (l : List ℚ) : ℝ :=
  Real.sqrt ((((l.map (fun r => (r - sampleMean l) * (r - sampleMean l))).sum : ℚ) : ℝ) /
    ((l.length : ℝ) - 1))

/-- C5: the reported Sharpe ratio is 0 when there are fewer than 2 values or the
sample standard deviation is 0, and otherwise equals
`(sampleMean − 0.05/252) / sampleStdDev × √252`; the constant sequence
`[10, 10, 10]` yields 0. -/
theorem C5_sharpe_ratio :
    (∀ returns : List ℚ,
      calculateSharpeRatio returns =
        if returns.length < 2 ∨ sampleStdDev returns = 0 then 0
        else ((sampleMean returns : ℝ) - 0.05 / 252) / sampleStdDev returns *
          Real.sqrt 252) ∧
    (∀ returns : List ℚ,
      (if 1 < returns.length then calculateSharpeRatio returns else 0) =
        calculateSharpeRatio returns) ∧
    calculateSharpeRatio [10, 10, 10] = 0 := by
  have hgen : ∀ returns : List ℚ,
      calculateSharpeRatio returns =
        if returns.length < 2 ∨ sampleStdDev returns = 0 then 0
        else ((sampleMean returns : ℝ) - 0.05 / 252) / sampleStdDev returns *
          Real.sqrt 252 := by
    intro returns
    by_cases h1 : returns.length < 2
    · rw [if_pos (Or.inl h1)]
      simp only [calculateSharpeRatio, if_pos h1]
    · by_cases h2 : sampleStdDev returns = 0
      · rw [if_pos (Or.inr h2)]
        simp only [sampleStdDev, sampleMean] at h2
        simp only [calculateSharpeRatio, if_neg h1, if_pos h2]
      · rw [if_neg (not_or.mpr ⟨h1, h2⟩)]
        simp only [sampleStdDev, sampleMean] at h2 ⊢
        simp only [calculateSharpeRatio, if_neg h1, if_neg h2]
  refine ⟨hgen, ?_, ?_⟩
  · intro returns
    by_cases h : 1 < returns.length
    · rw [if_pos h]
    · rw [if_neg h, hgen, if_pos (Or.inl (by omega))]
  rw [hgen]
  have hmean : sampleMean [10, 10, 10] = 10 := by
    norm_num [sampleMean]
  have hsd : sampleStdDev [10, 10, 10] = 0 := by
    simp only [sampleStdDev, hmean]
    norm_num
  rw [if_pos (Or.inr hsd)]

end

/-- Tests whether `pat` matches at the head of `s` (character-wise). -/
def isPrefB : List Char → List Char → Bool
  | [], _ => true
  | _ :: _, [] => false
  | a :: as, b :: bs => a == b && isPrefB as bs

/-- Tests whether `pat` occurs somewhere in `s`. -/
def hasSub (pat : List Char) : List Char → Bool
  | [] => isPrefB pat []
  | c :: rest => isPrefB pat (c :: rest) || hasSub pat rest

/-- Source `strings.Contains(s, pat)`. -/
def containsStr (s pat : String) : Bool := hasSub pat.toList s.toList

def trimChars (cs : List Char) : List Char :=
  ((cs.dropWhile Char.isWhitespace).reverse.dropWhile Char.isWhitespace).reverse

/-- Source `strings.TrimSpace`. -/
def trimSpace (s : String) : String := String.mk (trimChars s.toList)

/-- Source `strings.Split` for a one-character separator (the source splits on "\n" and "|"). -/
def splitOnChar (sep : Char) : List Char → List (List Char)
  | [] => [[]]
  | c :: rest =>
    if c == sep then [] :: splitOnChar sep rest
    else
      match splitOnChar sep rest with
      | [] => [[c]]
      | g :: gs => (c :: g) :: gs

def splitStr (s : String) (sep : Char) : List String :=
  (splitOnChar sep s.toList).map String.mk

/-- Source `strings.TrimSuffix(s, "%")`. -/
def trimSuffixPercent (s : String) : String :=
  match s.toList.reverse with
  | '%' :: rest => String.mk rest.reverse
  | _ => s

def digitsToNat (acc : ℕ) : List Char → ℕ
  | [] => acc
  | c :: cs => digitsToNat (acc * 10 + (c.toNat - 48)) cs

/-- Modelled from the Go standard library's `fmt.Sscanf(popStr, "%f", &pop)`: parse
an optionally signed decimal number; on any other shape the scan fails and `pop`
keeps its zero value. -/
def scanFloat (s : String) : ℚ :=
  let signAndRest : ℚ × List Char :=
    match s.toList with
    | '-' :: t => (-1, t)
    | '+' :: t => (1, t)
    | cs => (1, cs)
  let intPart := signAndRest.2.takeWhile Char.isDigit
  let rest := signAndRest.2.dropWhile Char.isDigit
  if intPart.isEmpty then 0
  else
    match rest with
    | [] => signAndRest.1 * (digitsToNat 0 intPart : ℚ)
    | '.' :: frac =>
      if frac.all Char.isDigit then
        signAndRest.1 * ((digitsToNat 0 intPart : ℚ) +
          (digitsToNat 0 frac : ℚ) / (10 : ℚ) ^ frac.length)
      else 0
    | _ => 0

/-- The line loop of `parseTableFormat` (trading_assistant.go, lines 97-145), with
the `inTable` flag and the accumulated recommendations as explicit state. -/
def tableLoop : List String → Bool → List TradeRecommendation → List TradeRecommendation
  | [], _, recs => recs
  | l :: rest, inTable, recs =>
    let line := trimSpace l
    if line == "" || containsStr line "Ticker" || containsStr line "---" then
      tableLoop rest (if containsStr line "Ticker" then true else inTable) recs
    else if !inTable then
      tableLoop rest inTable recs
    else
      let parts := splitStr line '|'
      if 5 ≤ parts.length then
        let pop := scanFloat (trimSpace (trimSuffixPercent (parts.getD 4 "")))
        let r : TradeRecommendation :=
          { ticker := trimSpace (parts.getD 0 "")
            strategy := trimSpace (parts.getD 1 "")
            legs := trimSpace (parts.getD 2 "")
            thesis := trimSpace (parts.getD 3 "")
            pop := pop / 100
            maxLoss := 0
            maxProfit := 0
            score := 0 }
        tableLoop rest inTable (recs ++ [r])
      else tableLoop rest inTable recs

/-- Source `parseTableFormat` (trading_assistant.go, lines 97-145): `none` embeds the
"no recommendations found in response" error. -/
def parseTableFormat (response : String) : Option (List TradeRecommendation) :=
  let recs := tableLoop (splitStr response '\n') false []
  if recs.length = 0 then none else some recs

/-- Source `strings.Index(s, "[")` for a one-character needle (`none` embeds -1). -/
def firstIdxOf (c : Char) : List Char → Option ℕ
  | [] => none
  | d :: rest => if d == c then some 0 else (firstIdxOf c rest).map (· + 1)

/-- Source `strings.LastIndex(s, "]")` for a one-character needle (`none` embeds -1). -/
def lastIdxOf (c : Char) (cs : List Char) : Option ℕ :=
  (firstIdxOf c cs.reverse).map (fun k => cs.length - 1 - k)

/-- Source `parseRecommendations` (trading_assistant.go, lines 77-95). The Go standard
library's `json.Unmarshal` into `[]TradeRecommendation` is abstracted as the
`jsonParse` parameter (`none` embeds an unmarshalling error); the bracket search,
the substring passed to it and both fallbacks to table parsing mirror the source. -/
def parseRecommendations (jsonParse : String → Option (List TradeRecommendation))
    (response : String) : Option (List TradeRecommendation) :=
  let cs := response.toList
  match firstIdxOf '[' cs, lastIdxOf ']' cs with
  | some startIdx, some endIdx =>
    if startIdx < endIdx then
      let jsonStr := String.mk ((cs.drop startIdx).take (endIdx + 1 - startIdx))
      match jsonParse jsonStr with
      | some recs => some recs
      | none => parseTableFormat response
    else parseTableFormat response
  | _, _ => parseTableFormat response

/-- The raw text of the C10 scenario. -/
def c10Input : String :=
  "Ticker | Strategy | Legs | Thesis | 72%\n---\nSPY | Bull Put Spread | Sell 440P/Buy 435P | strong support | 72%"

set_option maxRecDepth 100000 in
/-- C10: on the scenario text the normalizer succeeds — regardless of how the JSON
tier would behave, since the text contains no `[` — and recovers exactly one
candidate, with ticker "SPY" and probability of profit 0.72. -/
theorem C10_normalizer_table_scenario
    (jsonParse : String → Option (List TradeRecommendation)) :
    ∃ r : TradeRecommendation,
      parseRecommendations jsonParse c10Input = some [r] ∧
      r.ticker = "SPY" ∧ r.pop = 72/100 := by
  refine ⟨{ ticker := "SPY", strategy := "Bull Put Spread",
            legs := "Sell 440P/Buy 435P", thesis := "strong support",
            pop := scanFloat "72" / 100, maxLoss := 0, maxProfit := 0, score := 0 },
    ?_, rfl, ?_⟩
  · rfl
  · show scanFloat "72" / 100 = 72/100
    have h : scanFloat "72" = (1 : ℚ) * ((72 : ℕ) : ℚ) := rfl
    rw [h]
    norm_num

end ClaudeTrade
